import Mathlib

/-
Verification of the build-metadata and artifact-catalog layer
(src/src/cosalib/build.py and src/src/cmdlib.py) of coreos-assembler.

The embedding models Python JSON values, the four metadata documents of a
build handle, the metadata merge/flush/reload cycle, the atomic write of
write_json, the artifact checksum helpers, and the fail-fast construction
of the build handle.  External collaborators (hashlib, tempfile naming,
the Builds index, json serialization) are modelled as explicit parameters,
as noted at each definition.
-/

namespace Cosa

/-- JSON values as produced by json.load; Python None is JValue.null. -/
inductive JValue where
  | null
  | bool (b : Bool)
  | num (n : Int)
  | str (s : String)
  | arr (xs : List JValue)
  | obj (fields : List (String × JValue))

/-- A JSON object body; Python dicts preserve insertion order, so a list
of key-value pairs (well-formed dicts have no duplicate keys). -/
abbrev JDict := List (String × JValue)

/-- Python dict lookup d[k] restricted to the first matching entry. -/
def dLookup : JDict → String → Option JValue
  | [], _ => none
  | (k0, v0) :: t, q => if k0 = q then some v0 else dLookup t q

/-- Python assignment d[k] = v: replace the entry in place when the key is
present, otherwise append a new entry at the end. -/
def dictInsert : JDict → String → JValue → JDict
  | [], k, v => [(k, v)]
  | (k0, v0) :: t, k, v =>
      if k0 = k then (k0, v) :: t else (k0, v0) :: dictInsert t k v

/-- Python dict.update(u): assign every entry of u into d, in order.
This is the shallow merge used by _Build.meta_append. -/
def dictUpdate (d u : JDict) : JDict :=
  u.foldl (fun acc kv => dictInsert acc kv.1 kv.2) d

/-- The Python exceptions that the modelled code can raise. -/
inductive PyErr where
  | buildError (msg : String)
  | typeError (msg : String)
  | keyError (key : String)
  | attributeError (msg : String)
  | notImplementedError (msg : String)
  | osError
  | jsonDecodeError
  | exception (msg : String)
deriving DecidableEq

/-! ### Metadata store state for the merge/flush/reload cycle (C1)

_Build keeps the meta document in _build_json["meta"]; meta.json on disk
holds its persisted form.  load_json/write_json round-trip a JSON document
(load_json itself is not under src/; per the spec it parses the on-disk
document), so the disk side is modelled by the parsed document it holds. -/

structure MetaState where
  mem : JDict
  disk : JDict

/-- _Build.meta_append: self._build_json["meta"].update(update_dict). -/
def meta_append (s : MetaState) (update_dict : JDict) : MetaState :=
  { s with mem := dictUpdate s.mem update_dict }

/-- _Build.meta_write: write_json(self.__file("meta"), self._build_json["meta"]).
At the document level the on-disk meta becomes the in-memory meta. -/
def meta_write (s : MetaState) : MetaState :=
  { s with disk := s.mem }

/-- _Build.refresh_meta: self._build_json["meta"] = self.__get_json("meta"),
reloading the in-memory document from disk. -/
def refresh_meta (s : MetaState) : MetaState :=
  { s with mem := s.disk }

lemma dLookup_dictInsert (d : JDict) (k : String) (v : JValue) (q : String) :
    dLookup (dictInsert d k v) q = if k = q then some v else dLookup d q := by
  induction d with
  | nil => simp [dictInsert, dLookup]
  | cons kv t ih =>
      obtain ⟨k0, v0⟩ := kv
      by_cases h0 : k0 = k
      · subst h0
        by_cases hq : k0 = q <;> simp [dictInsert, dLookup, hq]
      · by_cases hq : k0 = q
        · subst hq
          have : ¬ k = k0 := fun h => h0 h.symm
          simp [dictInsert, dLookup, h0, this]
        · simp [dictInsert, dLookup, h0, hq, ih]

lemma dLookup_eq_none_of_not_mem (d : JDict) (q : String)
    (h : q ∉ d.map Prod.fst) : dLookup d q = none := by
  induction d with
  | nil => rfl
  | cons kv t ih =>
      obtain ⟨k0, v0⟩ := kv
      simp only [List.map_cons, List.mem_cons] at h
      push_neg at h
      have hk : k0 ≠ q := fun he => h.1 he.symm
      simpa [dLookup, hk] using ih h.2

/-- dictUpdate is last-write-wins per field: a key present in the update
mapping takes its updated value, any other key keeps its prior value. -/
lemma dLookup_dictUpdate (d u : JDict) (hu : (u.map Prod.fst).Nodup)
    (q : String) :
    dLookup (dictUpdate d u) q =
      match dLookup u q with
      | some v => some v
      | none => dLookup d q := by
  induction u generalizing d with
  | nil => simp [dictUpdate, dLookup]
  | cons kv t ih =>
      obtain ⟨k, v⟩ := kv
      simp only [List.map_cons, List.nodup_cons] at hu
      have step : dictUpdate d ((k, v) :: t) = dictUpdate (dictInsert d k v) t := rfl
      rw [step, ih _ hu.2]
      by_cases hq : k = q
      · subst hq
        have : dLookup t k = none := dLookup_eq_none_of_not_mem t k hu.1
        simp [dLookup, this, dLookup_dictInsert]
      · have hk : ¬ k = q := hq
        cases ht : dLookup t q <;> simp [dLookup, hk, ht, dLookup_dictInsert]

/-- C1: with the in-memory meta equal to the prior on-disk document D,
merge(U) then flush() then reload() leaves the in-memory meta equal to D
shallow-merged with U (last-write-wins per field), while merge(U) then
reload() without a flush leaves the in-memory meta equal to D, discarding
U entirely. -/
theorem c1_merge_flush_reload (D U : JDict) (s : MetaState)
    (hmem : s.mem = D) (hdisk : s.disk = D)
    (hU : (U.map Prod.fst).Nodup) :
    (refresh_meta (meta_write (meta_append s U))).mem = dictUpdate D U ∧
    (∀ q, dLookup (dictUpdate D U) q =
      match dLookup U q with
      | some v => some v
      | none => dLookup D q) ∧
    (refresh_meta (meta_append s U)).mem = D := by
  refine ⟨?_, fun q => dLookup_dictUpdate D U hU q, ?_⟩
  · simp [refresh_meta, meta_write, meta_append, hmem]
  · simp [refresh_meta, meta_append, hdisk]

/-- Witness for C1 at a concrete state: D has fields a, b; U overwrites b
and adds c. -/
theorem c1_merge_flush_reload_witness :
    (let D : JDict := [("a", JValue.num 1), ("b", JValue.num 2)]
     let U : JDict := [("b", JValue.num 3), ("c", JValue.num 4)]
     let s : MetaState := { mem := D, disk := D }
     (refresh_meta (meta_write (meta_append s U))).mem = dictUpdate D U ∧
     (∀ q, dLookup (dictUpdate D U) q =
       match dLookup U q with
       | some v => some v
       | none => dLookup D q) ∧
     (refresh_meta (meta_append s U)).mem = D) :=
  c1_merge_flush_reload _ _ _ rfl rfl (by decide)

/-! ### File-level model of write_json (C2)

cmdlib.write_json computes dn = os.path.dirname(path), opens a
NamedTemporaryFile in dn (a fresh name, mode 0o600), json.dump writes the
serialized document into its userspace buffer, os.fchmod sets the inode
mode to 0o644, and os.rename moves the temporary name over the canonical
path.  The file object is neither flushed nor closed before the rename,
so only the part of the document that overflowed the buffer has reached
the inode by rename time; the rest reaches the same inode when the file
object is finalized, after the inode already sits at the canonical path.
Paths are lists of components; dirname is dropLast. -/

abbrev Path := List String

structure FileEnt where
  content : List Nat
  mode : Nat
deriving DecidableEq

abbrev Fs := Path → Option FileEnt

inductive FsOp where
  | create (p : Path) (mode : Nat)
  | append (p : Path) (bytes : List Nat)
  | fchmod (p : Path) (mode : Nat)
  | rename (src dst : Path)

def applyOp (fs : Fs) : FsOp → Fs
  | .create p m => fun q => if q = p then some ⟨[], m⟩ else fs q
  | .append p b => fun q =>
      if q = p then (fs p).map (fun e => ⟨e.content ++ b, e.mode⟩) else fs q
  | .fchmod p m => fun q =>
      if q = p then (fs p).map (fun e => ⟨e.content, m⟩) else fs q
  | .rename src dst => fun q =>
      if q = dst then fs src else if q = src then none else fs q

/-- cmdlib.write_json as the sequence of inode-visible filesystem
operations it performs: create the temporary sibling, then the data
json.dump pushes through the buffer splits into pre (the buffer-overflow
prefix of the serialized document, flushed to the inode before the
rename; empty whenever the document is smaller than the I/O buffer) and
post (the remainder, flushed only when the still-open file object is
finalized); fchmod and rename happen between the two, and the post
writes land at the canonical path because the renamed inode is the one
the open file descriptor refers to. -/
def write_json_ops (path : Path) (tmpname : String)
    (pre post : List (List Nat)) : List FsOp :=
  FsOp.create (path.dropLast ++ [tmpname]) 0o600 ::
    (pre.map (FsOp.append (path.dropLast ++ [tmpname])) ++
      [FsOp.fchmod (path.dropLast ++ [tmpname]) 0o644,
       FsOp.rename (path.dropLast ++ [tmpname]) path] ++
      post.map (FsOp.append path))

/-- _Build.__file("meta"): the canonical meta.json path inside the build
directory. -/
def metaFile (buildDir : Path) : Path := buildDir ++ ["meta.json"]

/-- _Build.meta_write at the file level: write_json on the canonical
meta.json path. -/
def meta_write_ops (buildDir : Path) (tmpname : String)
    (pre post : List (List Nat)) : List FsOp :=
  write_json_ops (metaFile buildDir) tmpname pre post

/-- C2 (code bug in the flush path): write_json renames the still-open,
still-buffered temporary file, so for a document smaller than the I/O
buffer (pre empty: every serialized byte is flushed only by the
finalizer) the canonical meta.json holds an empty document immediately
after the rename, which is neither the complete old document (byte 9)
nor the complete new one (bytes 1 2 3), refuting the never-partial
claim; the complete new document appears only after the post-rename
flush. -/
theorem c2_write_json_partial_after_rename :
    (let fs0 : Fs := fun q =>
       if q = ["builds", "b1", "meta.json"] then some ⟨[9], 0o644⟩ else none
     let ops := meta_write_ops ["builds", "b1"] "tmpabc" [] [[1, 2, 3]]
     ((ops.take 3).foldl applyOp fs0) (metaFile ["builds", "b1"]) =
        some ⟨[], 0o644⟩ ∧
     (⟨[], 0o644⟩ : FileEnt) ≠ ⟨[9], 0o644⟩ ∧
     (⟨[], 0o644⟩ : FileEnt) ≠ ⟨[1, 2, 3], 0o644⟩ ∧
     (ops.foldl applyOp fs0) (metaFile ["builds", "b1"]) =
        some ⟨[1, 2, 3], 0o644⟩) := by
  refine ⟨rfl, by decide, by decide, rfl⟩

/-! ### Build handle construction (C3)

_Build.__init__ resolves the build directory, initializes the four
document slots to None, then forces the commit, config, image and meta
properties in that order; each property loads its file through load_json
on first use, and each is checked against None immediately. -/

/-- Modelled from the spec: the possible on-disk states of one metadata
document seen by load_json (cosalib/cmdlib.py, which is not under src/):
present and parseable, absent, or present but not valid JSON. -/
inductive LoadResult where
  | ok (v : JValue)
  | missing
  | invalid

/-- Modelled from the spec: load_json reads and decodes one JSON file; a
missing file raises an OS error, invalid JSON raises a decode error, and
otherwise the parsed document (possibly JSON null, i.e. Python None) is
returned. -/
def load_json : LoadResult → Except PyErr JValue
  | .ok v => .ok v
  | .missing => .error .osError
  | .invalid => .error .jsonDecodeError

/-- The on-disk state of the four documents of one build. -/
structure DiskDocs where
  commit : LoadResult
  config : LoadResult
  image : LoadResult
  meta : LoadResult

/-- One validation step of _Build.__init__: force the slot through
load_json, then apply the `is None` check.  On a null document the check
raises; note that building the BuildError message evaluates
`"%s %s" % self.__file(...)` with a single string operand, which raises a
TypeError, so the error actually raised on that path is a TypeError. -/
def checkDoc (r : LoadResult) : Except PyErr JValue :=
  match load_json r with
  | .error e => .error e
  | .ok v =>
    match v with
    | .null => .error (.typeError "not enough arguments for format string")
    | v => .ok v

/-- A build handle after successful construction: the build directory,
the four cached documents, and the _image_name slot (None until a
concrete build kind assigns it). -/
structure Handle where
  buildDir : Path
  commit : JValue
  config : JValue
  image : JValue
  meta : JValue
  imageName : Option String

/-- The document-validation portion of _Build.__init__ (lines 91-102):
check commit, config, image and meta in order, fail-fast on the first
failure, and only then produce the handle with _image_name = None. -/
def construct (bd : Path) (d : DiskDocs) : Except PyErr Handle :=
  match checkDoc d.commit with
  | .error e => .error e
  | .ok c =>
    match checkDoc d.config with
    | .error e => .error e
    | .ok cf =>
      match checkDoc d.image with
      | .error e => .error e
      | .ok im =>
        match checkDoc d.meta with
        | .error e => .error e
        | .ok m => .ok ⟨bd, c, cf, im, m, none⟩

/-- A document loads successfully as a non-null value. -/
def goodDoc (r : LoadResult) : Prop :=
  ∃ v, load_json r = Except.ok v ∧ v ≠ JValue.null

lemma ok_iff_of_ne_null {w : JValue} (hw : w ≠ JValue.null) (v : JValue) :
    ((Except.ok w : Except PyErr JValue) = Except.ok v) ↔
      ((Except.ok w : Except PyErr JValue) = Except.ok v ∧ v ≠ JValue.null) := by
  constructor
  · intro h
    have hv : w = v := by injection h
    exact ⟨h, fun hn => hw (by rw [hv, hn])⟩
  · exact And.left

lemma checkDoc_ok_iff (r : LoadResult) (v : JValue) :
    checkDoc r = Except.ok v ↔
      (load_json r = Except.ok v ∧ v ≠ JValue.null) := by
  unfold checkDoc
  rcases hl : load_json r with e | w
  · simp
  · cases w with
    | null =>
        simp
        exact fun h => h.symm
    | bool b => exact ok_iff_of_ne_null (fun h => JValue.noConfusion h) v
    | num n => exact ok_iff_of_ne_null (fun h => JValue.noConfusion h) v
    | str s => exact ok_iff_of_ne_null (fun h => JValue.noConfusion h) v
    | arr xs => exact ok_iff_of_ne_null (fun h => JValue.noConfusion h) v
    | obj fields => exact ok_iff_of_ne_null (fun h => JValue.noConfusion h) v

lemma checkDoc_ok_of_goodDoc (r : LoadResult) (h : goodDoc r) :
    ∃ v, checkDoc r = Except.ok v := by
  obtain ⟨v, hv, hn⟩ := h
  exact ⟨v, (checkDoc_ok_iff r v).2 ⟨hv, hn⟩⟩

lemma construct_ok_spec (bd : Path) (d : DiskDocs) (h : Handle)
    (hok : construct bd d = Except.ok h) :
    checkDoc d.commit = Except.ok h.commit ∧
    checkDoc d.config = Except.ok h.config ∧
    checkDoc d.image = Except.ok h.image ∧
    checkDoc d.meta = Except.ok h.meta := by
  unfold construct at hok
  rcases hc : checkDoc d.commit with e | c <;> rw [hc] at hok
  · exact absurd hok (by simp)
  rcases hcf : checkDoc d.config with e | cf <;> rw [hcf] at hok
  · exact absurd hok (by simp)
  rcases him : checkDoc d.image with e | im <;> rw [him] at hok
  · exact absurd hok (by simp)
  rcases hm : checkDoc d.meta with e | m <;> rw [hm] at hok
  · exact absurd hok (by simp)
  have := Except.ok.inj hok
  subst this
  exact ⟨rfl, rfl, rfl, rfl⟩

/-- C3: build handle construction is fail-fast and all-or-nothing over the
four documents: a handle is produced exactly when every one of commit,
config, image and meta loads as a non-null document; on success the
handle holds exactly the four loaded non-null documents, and on any
failure an error is raised and no handle exists. -/
theorem c3_construct_all_or_nothing (bd : Path) (d : DiskDocs) :
    ((∃ h, construct bd d = Except.ok h) ↔
      (goodDoc d.commit ∧ goodDoc d.config ∧ goodDoc d.image ∧ goodDoc d.meta)) ∧
    (∀ h, construct bd d = Except.ok h →
      (load_json d.commit = Except.ok h.commit ∧ h.commit ≠ JValue.null) ∧
      (load_json d.config = Except.ok h.config ∧ h.config ≠ JValue.null) ∧
      (load_json d.image = Except.ok h.image ∧ h.image ≠ JValue.null) ∧
      (load_json d.meta = Except.ok h.meta ∧ h.meta ≠ JValue.null)) ∧
    (¬ (goodDoc d.commit ∧ goodDoc d.config ∧ goodDoc d.image ∧ goodDoc d.meta) →
      ∃ e, construct bd d = Except.error e) := by
  have hspec : ∀ h, construct bd d = Except.ok h →
      (load_json d.commit = Except.ok h.commit ∧ h.commit ≠ JValue.null) ∧
      (load_json d.config = Except.ok h.config ∧ h.config ≠ JValue.null) ∧
      (load_json d.image = Except.ok h.image ∧ h.image ≠ JValue.null) ∧
      (load_json d.meta = Except.ok h.meta ∧ h.meta ≠ JValue.null) := by
    intro h hok
    obtain ⟨hc, hcf, him, hm⟩ := construct_ok_spec bd d h hok
    exact ⟨(checkDoc_ok_iff _ _).1 hc, (checkDoc_ok_iff _ _).1 hcf,
      (checkDoc_ok_iff _ _).1 him, (checkDoc_ok_iff _ _).1 hm⟩
  have hiff : (∃ h, construct bd d = Except.ok h) ↔
      (goodDoc d.commit ∧ goodDoc d.config ∧ goodDoc d.image ∧ goodDoc d.meta) := by
    constructor
    · rintro ⟨h, hok⟩
      obtain ⟨h1, h2, h3, h4⟩ := hspec h hok
      exact ⟨⟨_, h1⟩, ⟨_, h2⟩, ⟨_, h3⟩, ⟨_, h4⟩⟩
    · rintro ⟨g1, g2, g3, g4⟩
      obtain ⟨c, hc⟩ := checkDoc_ok_of_goodDoc _ g1
      obtain ⟨cf, hcf⟩ := checkDoc_ok_of_goodDoc _ g2
      obtain ⟨im, him⟩ := checkDoc_ok_of_goodDoc _ g3
      obtain ⟨m, hm⟩ := checkDoc_ok_of_goodDoc _ g4
      exact ⟨⟨bd, c, cf, im, m, none⟩, by unfold construct; rw [hc, hcf, him, hm]⟩
  refine ⟨hiff, hspec, ?_⟩
  intro hbad
  rcases hcons : construct bd d with e | h
  · exact ⟨e, rfl⟩
  · exact absurd (hiff.1 ⟨h, hcons⟩) hbad

/-- Witness for C3: a disk state where all four documents are present and
non-null yields a handle holding them; the conclusion is instantiated at
that state. -/
theorem c3_construct_all_or_nothing_witness :
    (let d : DiskDocs := ⟨.ok (.obj [("a", .num 1)]), .ok (.obj []),
      .ok (.obj []), .ok (.obj [("name", .str "fcos")])⟩
     ((∃ h, construct ["builds", "b1"] d = Except.ok h) ↔
       (goodDoc d.commit ∧ goodDoc d.config ∧ goodDoc d.image ∧ goodDoc d.meta)) ∧
     (∀ h, construct ["builds", "b1"] d = Except.ok h →
       (load_json d.commit = Except.ok h.commit ∧ h.commit ≠ JValue.null) ∧
       (load_json d.config = Except.ok h.config ∧ h.config ≠ JValue.null) ∧
       (load_json d.image = Except.ok h.image ∧ h.image ≠ JValue.null) ∧
       (load_json d.meta = Except.ok h.meta ∧ h.meta ≠ JValue.null)) ∧
     (¬ (goodDoc d.commit ∧ goodDoc d.config ∧ goodDoc d.image ∧ goodDoc d.meta) →
       ∃ e, construct ["builds", "b1"] d = Except.error e)) :=
  c3_construct_all_or_nothing ["builds", "b1"] _

/-! ### Document lookups: get_obj, get_meta_key, get_sub_obj (C6, C7) -/

/-- _Build.get_obj: return the cached backing document for one of the four
recognized keys; any other key raises KeyError inside the try block, the
bare except turns it into a BuildError naming the invalid key (the
unknown-metadata-key error of the spec). -/
def get_obj (h : Handle) (key : String) : Except PyErr JValue :=
  if key = "commit" then Except.ok h.commit
  else if key = "config" then Except.ok h.config
  else if key = "image" then Except.ok h.image
  else if key = "meta" then Except.ok h.meta
  else Except.error (.buildError ("invalid key " ++ key ++
    ", valid keys are commit, config, image, meta"))

/-- Python subscripting v[k] with a string key: an object yields the entry
or raises KeyError; every non-dict value raises a TypeError. -/
def jIndex : JValue → String → Except PyErr JValue
  | .obj fields, k =>
      match dLookup fields k with
      | some v => Except.ok v
      | none => Except.error (.keyError k)
  | .null, _ => Except.error (.typeError "NoneType object is not subscriptable")
  | .str _, _ => Except.error (.typeError "string indices must be integers")
  | .arr _, _ => Except.error (.typeError "list indices must be integers")
  | .num _, _ => Except.error (.typeError "int object is not subscriptable")
  | .bool _, _ => Except.error (.typeError "bool object is not subscriptable")

/-- Result of a lookup together with the number of warnings it logged. -/
structure LookupOut where
  result : Except PyErr JValue
  warnings : Nat

/-- _Build.get_meta_key: try get_obj(obj)[key]; only a KeyError is caught,
logged as a warning and turned into None; anything else propagates. -/
def get_meta_key (h : Handle) (obj key : String) : LookupOut :=
  match get_obj h obj with
  | .error e => ⟨.error e, 0⟩
  | .ok data =>
    match jIndex data key with
    | .ok v => ⟨.ok v, 0⟩
    | .error (.keyError _) => ⟨.ok .null, 1⟩
    | .error e => ⟨.error e, 0⟩

/-- The try obj[key][sub] / except KeyError body of _Build.get_sub_obj: a
KeyError is logged (log.warning(obj)) and the function falls through,
implicitly returning None; any other exception propagates. -/
def get_sub_obj_doc (d : JValue) (key sub : String) : LookupOut :=
  match jIndex d key with
  | .error (.keyError _) => ⟨.ok .null, 1⟩
  | .error e => ⟨.error e, 0⟩
  | .ok v =>
    match jIndex v sub with
    | .error (.keyError _) => ⟨.ok .null, 1⟩
    | .error e => ⟨.error e, 0⟩
    | .ok w => ⟨.ok w, 0⟩

/-- _Build.get_sub_obj called with a document name: the isinstance(obj, str)
branch resolves the name through get_obj (whose BuildError is not inside
the try) and recurses with the resolved document. -/
def get_sub_obj (h : Handle) (obj key sub : String) : LookupOut :=
  match get_obj h obj with
  | .error e => ⟨.error e, 0⟩
  | .ok d => get_sub_obj_doc d key sub

/-- A sample constructed handle used by concrete witnesses: all four
documents loaded and non-null, no image name assigned yet. -/
def sampleHandle : Handle :=
  { buildDir := ["builds", "b1"]
    commit := .obj [("x", .num 1)]
    config := .obj []
    image := .obj []
    meta := .obj [("name", .str "fcos"), ("buildid", .str "35.20220101.0"),
      ("coreos-assembler.basearch", .str "x86_64")]
    imageName := none }

/-- C6: get_obj on any key outside the four recognized document names
raises the unknown-metadata-key BuildError and never returns a document. -/
theorem c6_get_obj_unknown_key (h : Handle) (key : String)
    (hk : key ≠ "commit" ∧ key ≠ "config" ∧ key ≠ "image" ∧ key ≠ "meta") :
    get_obj h key = Except.error (.buildError ("invalid key " ++ key ++
      ", valid keys are commit, config, image, meta")) ∧
    ∀ v, get_obj h key ≠ Except.ok v := by
  have hmain : get_obj h key = Except.error (.buildError ("invalid key " ++ key ++
      ", valid keys are commit, config, image, meta")) := by
    simp [get_obj, hk.1, hk.2.1, hk.2.2.1, hk.2.2.2]
  exact ⟨hmain, fun v hv => Except.noConfusion (hmain ▸ hv)⟩

/-- Witness for C6 at the concrete unrecognized key "platform". -/
theorem c6_get_obj_unknown_key_witness :
    get_obj sampleHandle "platform" = Except.error (.buildError
      ("invalid key " ++ "platform" ++
        ", valid keys are commit, config, image, meta")) ∧
    ∀ v, get_obj sampleHandle "platform" ≠ Except.ok v :=
  c6_get_obj_unknown_key sampleHandle "platform" (by decide)

/-- C7 counterexample: in the meta document of sampleHandle the nested
path name.sub is absent (the field name holds a string), yet
get_sub_obj("meta", "name", "sub") raises a TypeError with no warning
logged, instead of returning null with a warning; so the soft lookups can
raise. -/
theorem c7_counterexample :
    get_sub_obj sampleHandle "meta" "name" "sub" =
      ⟨Except.error (.typeError "string indices must be integers"), 0⟩ ∧
    get_sub_obj sampleHandle "meta" "name" "sub" ≠
      ⟨Except.ok JValue.null, 1⟩ := by
  constructor
  · rfl
  · intro h
    rw [show get_sub_obj sampleHandle "meta" "name" "sub" =
      ⟨Except.error (.typeError "string indices must be integers"), 0⟩ from rfl] at h
    simp at h

/-- C7 amended: on a recognized document key whose document is a JSON
object, get_meta_key returns null and logs one warning when the field is
absent, and get_sub_obj returns null and logs one warning when the field
is absent or when the field holds an object lacking the subfield; only a
field holding a non-object value makes get_sub_obj propagate a TypeError. -/
theorem c7_soft_lookups_amended (h : Handle) (obj key sub : String)
    (d : JDict) (hd : get_obj h obj = Except.ok (JValue.obj d)) :
    (dLookup d key = none →
      get_meta_key h obj key = ⟨Except.ok JValue.null, 1⟩ ∧
      get_sub_obj h obj key sub = ⟨Except.ok JValue.null, 1⟩) ∧
    (∀ g, dLookup d key = some (JValue.obj g) → dLookup g sub = none →
      get_sub_obj h obj key sub = ⟨Except.ok JValue.null, 1⟩) := by
  constructor
  · intro hk
    have hj : jIndex (JValue.obj d) key = Except.error (.keyError key) := by
      simp [jIndex, hk]
    constructor
    · simp [get_meta_key, hd, hj]
    · simp [get_sub_obj, get_sub_obj_doc, hd, hj]
  · intro g hk hs
    have hj1 : jIndex (JValue.obj d) key = Except.ok (JValue.obj g) := by
      simp [jIndex, hk]
    have hj2 : jIndex (JValue.obj g) sub = Except.error (.keyError sub) := by
      simp [jIndex, hs]
    simp [get_sub_obj, get_sub_obj_doc, hd, hj1, hj2]

/-- Witness for C7 at sampleHandle: the meta document lacks the key zzz,
and its name field (a string, so not an object) is handled by the
counterexample while the absent-key paths return null plus one warning. -/
theorem c7_soft_lookups_amended_witness :
    ((dLookup [("name", JValue.str "fcos"), ("buildid", JValue.str "35.20220101.0"),
        ("coreos-assembler.basearch", JValue.str "x86_64")] "zzz" = none →
      get_meta_key sampleHandle "meta" "zzz" = ⟨Except.ok JValue.null, 1⟩ ∧
      get_sub_obj sampleHandle "meta" "zzz" "w" = ⟨Except.ok JValue.null, 1⟩) ∧
    (∀ g, dLookup [("name", JValue.str "fcos"), ("buildid", JValue.str "35.20220101.0"),
        ("coreos-assembler.basearch", JValue.str "x86_64")] "zzz" =
          some (JValue.obj g) →
      dLookup g "w" = none →
      get_sub_obj sampleHandle "meta" "zzz" "w" = ⟨Except.ok JValue.null, 1⟩)) :=
  c7_soft_lookups_amended sampleHandle "meta" "zzz" "w" _ rfl

/-! ### Derived accessors and image_name_base (C8) -/

/-- A single-quote character, as used by the Python repr of strings. -/
def pyQuote : String := (Char.ofNat 39).toString

/-- Python str()/format() on a JSON value, modelled from Python semantics:
scalars render as None/True/False/decimal/identity, containers render
their elements through repr (the Bool flag selects repr, which quotes
strings).  The fuel argument bounds recursion into containers; the sizeOf
of the value always suffices. -/
def pyStrAux : Nat → Bool → JValue → String
  | _, _, .null => "None"
  | _, _, .bool true => "True"
  | _, _, .bool false => "False"
  | _, _, .num n => toString n
  | _, false, .str s => s
  | _, true, .str s => pyQuote ++ s ++ pyQuote
  | 0, _, .arr _ => ""
  | 0, _, .obj _ => ""
  | fuel + 1, _, .arr xs =>
      "[" ++ String.intercalate ", " (xs.map (fun v => pyStrAux fuel true v)) ++ "]"
  | fuel + 1, _, .obj fields =>
      "\x7b" ++ String.intercalate ", "
        (fields.map (fun kv => pyQuote ++ kv.1 ++ pyQuote ++ ": " ++
          pyStrAux fuel true kv.2)) ++ "\x7d"

/- A computable structural size of a JSON value, used as recursion fuel
for pyStr (it dominates the container nesting depth). -/
mutual

def jsize : JValue → Nat
  | .arr xs => 1 + jsizeList xs
  | .obj fields => 1 + jsizeObj fields
  | _ => 1

def jsizeList : List JValue → Nat
  | [] => 0
  | v :: t => jsize v + jsizeList t

def jsizeObj : List (String × JValue) → Nat
  | [] => 0
  | kv :: t => jsize kv.2 + jsizeObj t

end

/-- Python str() on a JSON value. -/
def pyStr (v : JValue) : String := pyStrAux (jsize v) false v

lemma pyStrAux_str (f : Nat) (s : String) : pyStrAux f false (.str s) = s := by
  cases f <;> rfl

lemma pyStr_str (s : String) : pyStr (.str s) = s := pyStrAux_str _ s

/-- _Build.ckey: the coreos-assembler namespacing helper. -/
def ckey (var : String) : String := "coreos-assembler." ++ var

/-- _Build.build_name: str(self.get_meta_key("meta", "name")). -/
def build_name (h : Handle) : Except PyErr String :=
  (get_meta_key h "meta" "name").result.map pyStr

/-- _Build.build_id: self.get_meta_key("meta", "buildid"). -/
def build_id (h : Handle) : Except PyErr JValue :=
  (get_meta_key h "meta" "buildid").result

/-- _Build.basearch: self.meta.get(ckey("basearch"), BASEARCH); dict.get
with a default, so a non-dict meta document raises an AttributeError.
BASEARCH is the host architecture returned by get_basearch(), passed in
as a parameter. -/
def basearch (BASEARCH : String) (h : Handle) : Except PyErr JValue :=
  match h.meta with
  | .obj fields =>
      Except.ok ((dLookup fields (ckey "basearch")).getD (.str BASEARCH))
  | _ => Except.error (.attributeError "object has no attribute get")

/-- _Build.image_name_base: when _image_name has been assigned it is
returned directly; otherwise the f-string composes
build_name-build_id-platform.basearch, formatting each part through
str(). platform is supplied by the concrete build kind. -/
def image_name_base (BASEARCH platform : String) (h : Handle) :
    Except PyErr String :=
  match h.imageName with
  | some nm => Except.ok nm
  | none =>
    match build_name h with
    | .error e => .error e
    | .ok bn =>
      match build_id h with
      | .error e => .error e
      | .ok bid =>
        match basearch BASEARCH h with
        | .error e => .error e
        | .ok ba =>
            Except.ok (bn ++ "-" ++ pyStr bid ++ "-" ++ platform ++ "." ++ pyStr ba)

/-- The image_name property setter of _Build. -/
def set_image_name (h : Handle) (v : String) : Handle :=
  { h with imageName := some v }

/-- C8 counterexample: on a handle whose image name has been assigned,
image_name_base returns the assigned name rather than the composed
name-id-platform.arch string, so it is not always that composition. -/
theorem c8_counterexample :
    image_name_base "x86_64" "qemu" (set_image_name sampleHandle "override.qcow2") =
      Except.ok "override.qcow2" ∧
    "override.qcow2" ≠ "fcos-35.20220101.0-qemu.x86_64" :=
  ⟨rfl, by decide⟩

/-- C8 amended: while no image name has been assigned, image_name_base is
the pure composition name-id-platform.arch of the meta document fields
and the supplied platform; once an image name is assigned it returns that
name instead. -/
theorem c8_image_name_base_amended (BASEARCH platform nm bid ba : String)
    (h : Handle) (fields : JDict)
    (hmeta : h.meta = JValue.obj fields) (hin : h.imageName = none)
    (hn : dLookup fields "name" = some (.str nm))
    (hb : dLookup fields "buildid" = some (.str bid))
    (ha : dLookup fields (ckey "basearch") = some (.str ba)) :
    image_name_base BASEARCH platform h =
      Except.ok (nm ++ "-" ++ bid ++ "-" ++ platform ++ "." ++ ba) ∧
    ∀ v, image_name_base BASEARCH platform (set_image_name h v) =
      Except.ok v := by
  have hobj : get_obj h "meta" = Except.ok h.meta := by
    unfold get_obj
    rw [if_neg (by decide), if_neg (by decide), if_neg (by decide), if_pos rfl]
  have h1 : get_meta_key h "meta" "name" = ⟨Except.ok (.str nm), 0⟩ := by
    simp [get_meta_key, hobj, hmeta, jIndex, hn]
  have h2 : get_meta_key h "meta" "buildid" = ⟨Except.ok (.str bid), 0⟩ := by
    simp [get_meta_key, hobj, hmeta, jIndex, hb]
  have hbn : build_name h = Except.ok nm := by
    simp [build_name, h1, Except.map, pyStr_str]
  have hbid : build_id h = Except.ok (.str bid) := by
    simp [build_id, h2]
  have hba : basearch BASEARCH h = Except.ok (.str ba) := by
    simp [basearch, hmeta, ha]
  refine ⟨?_, fun v => rfl⟩
  simp [image_name_base, hin, hbn, hbid, hba, pyStr_str]

/-- Witness for C8 amended, at sampleHandle with platform qemu: the
composed name equals the concrete string of the spec example, and setting
an image name overrides it. -/
theorem c8_image_name_base_amended_witness :
    image_name_base "x86_64" "qemu" sampleHandle =
      Except.ok "fcos-35.20220101.0-qemu.x86_64" ∧
    ∀ v, image_name_base "x86_64" "qemu" (set_image_name sampleHandle v) =
      Except.ok v := by
  have h := c8_image_name_base_amended "x86_64" "qemu" "fcos" "35.20220101.0"
    "x86_64" sampleHandle _ rfl rfl rfl rfl rfl
  refine ⟨?_, h.2⟩
  rw [h.1]
  rfl

/-! ### Artifact catalog: image_name, image_path, have_artifact,
ensure_built, get_artifact_meta (C4, C5, C10) -/

/-- _Build.image_name: raises NotImplementedError while _image_name is
unset (the typo in the message is in the source). -/
def image_name (h : Handle) : Except PyErr String :=
  match h.imageName with
  | none => Except.error (.notImplementedError "image naming is not implmented here")
  | some v => Except.ok v

/-- _Build.image_path: os.path.join(build_dir, image_name). -/
def image_path (h : Handle) : Except PyErr Path :=
  match image_name h with
  | .error e => .error e
  | .ok nm => .ok (h.buildDir ++ [nm])

/-- _Build.have_artifact: os.path.exists(self.image_path). -/
def have_artifact (fs : Fs) (h : Handle) : Except PyErr Bool :=
  match image_path h with
  | .error e => .error e
  | .ok p => .ok (fs p).isSome

/-- Mutable state around artifact production: the filesystem and the
number of times the polymorphic production hook has been invoked. -/
structure World where
  fs : Fs
  hookCalls : Nat

/-- _Build.build_artifacts: logs, then delegates to the polymorphic
_build_artifacts hook supplied by the concrete build kind (modelled as a
filesystem transformer); the invocation is counted. -/
def build_artifacts (hook : Fs → Fs) (w : World) : World :=
  { fs := hook w.fs, hookCalls := w.hookCalls + 1 }

/-- _Build.ensure_built: invoke build_artifacts only when have_artifact
is false. -/
def ensure_built (hook : Fs → Fs) (h : Handle) (w : World) :
    Except PyErr World :=
  match have_artifact w.fs h with
  | .error e => .error e
  | .ok true => .ok w
  | .ok false => .ok (build_artifacts hook w)

/-- C5: ensure_built invokes the production hook exactly when
have_artifact is false at that moment, and two consecutive calls made
while the artifact file exists leave the world unchanged with zero hook
invocations. -/
theorem c5_ensure_built_idempotent (hook : Fs → Fs) (h : Handle)
    (nm : String) (hin : h.imageName = some nm) :
    (∀ w w1, ensure_built hook h w = Except.ok w1 →
      (w1.hookCalls = w.hookCalls + 1 ↔
        have_artifact w.fs h = Except.ok false) ∧
      (have_artifact w.fs h = Except.ok true → w1 = w) ∧
      (have_artifact w.fs h = Except.ok false →
        w1 = build_artifacts hook w)) ∧
    (∀ w, (w.fs (h.buildDir ++ [nm])).isSome = true →
      ensure_built hook h w = Except.ok w ∧
      (ensure_built hook h w >>= fun w1 => ensure_built hook h w1) =
        Except.ok w) := by
  have hha : ∀ fs : Fs, have_artifact fs h =
      Except.ok (fs (h.buildDir ++ [nm])).isSome := by
    intro fs
    simp [have_artifact, image_path, image_name, hin]
  constructor
  · intro w w1 hok
    unfold ensure_built at hok
    rw [hha w.fs] at hok
    cases hb : (w.fs (h.buildDir ++ [nm])).isSome
    · rw [hb] at hok
      have hok2 : Except.ok (build_artifacts hook w) = Except.ok w1 := hok
      have hw1 := Except.ok.inj hok2
      subst hw1
      refine ⟨?_, ?_, fun _ => rfl⟩
      · rw [hha w.fs, hb]
        simp [build_artifacts]
      · intro hcontra
        rw [hha w.fs, hb] at hcontra
        exact absurd (Except.ok.inj hcontra) (by simp)
    · rw [hb] at hok
      have hok2 : Except.ok w = Except.ok w1 := hok
      have hw1 := Except.ok.inj hok2
      subst hw1
      refine ⟨?_, fun _ => rfl, ?_⟩
      · rw [hha w.fs, hb]
        constructor
        · intro hc
          exact absurd hc (by omega)
        · intro hc
          exact absurd (Except.ok.inj hc) (by simp)
      · intro hcontra
        rw [hha w.fs, hb] at hcontra
        exact absurd (Except.ok.inj hcontra) (by simp)
  · intro w hex
    have h1 : ensure_built hook h w = Except.ok w := by
      unfold ensure_built
      rw [hha w.fs, hex]
    have h2 : (Except.ok w >>= fun w1 => ensure_built hook h w1 :
        Except PyErr World) = ensure_built hook h w := rfl
    refine ⟨h1, ?_⟩
    rw [h1, h2, h1]

/-- Witness for C5: a world whose filesystem already contains the
artifact file of the handle. -/
theorem c5_ensure_built_idempotent_witness :
    (let h := set_image_name sampleHandle "img.qcow2"
     let w : World :=
       ⟨fun p => if p = ["builds", "b1", "img.qcow2"] then
          some ⟨[7], 0o644⟩ else none, 0⟩
     (∀ w0 w1, ensure_built id h w0 = Except.ok w1 →
       (w1.hookCalls = w0.hookCalls + 1 ↔
         have_artifact w0.fs h = Except.ok false) ∧
       (have_artifact w0.fs h = Except.ok true → w1 = w0) ∧
       (have_artifact w0.fs h = Except.ok false →
         w1 = build_artifacts id w0)) ∧
     (∀ w0, (w0.fs (h.buildDir ++ ["img.qcow2"])).isSome = true →
       ensure_built id h w0 = Except.ok w0 ∧
       (ensure_built id h w0 >>= fun w1 => ensure_built id h w1) =
         Except.ok w0) ∧
     ((w.fs (h.buildDir ++ ["img.qcow2"])).isSome = true ∧
       ensure_built id h w = Except.ok w)) := by
  have h := c5_ensure_built_idempotent id
    (set_image_name sampleHandle "img.qcow2") "img.qcow2" rfl
  exact ⟨h.1, h.2, rfl,
    (h.2 ⟨fun p => if p = ["builds", "b1", "img.qcow2"] then
      some ⟨[7], 0o644⟩ else none, 0⟩ rfl).1⟩

/-- C10: while no image name has been assigned, image_name, image_path,
have_artifact and ensure_built all raise NotImplementedError instead of
returning a value or acting as a no-op. -/
theorem c10_unset_image_name (h : Handle) (fs : Fs) (hook : Fs → Fs)
    (w : World) (hin : h.imageName = none) :
    image_name h = Except.error
      (.notImplementedError "image naming is not implmented here") ∧
    image_path h = Except.error
      (.notImplementedError "image naming is not implmented here") ∧
    have_artifact fs h = Except.error
      (.notImplementedError "image naming is not implmented here") ∧
    ensure_built hook h w = Except.error
      (.notImplementedError "image naming is not implmented here") := by
  have h1 : image_name h = Except.error
      (.notImplementedError "image naming is not implmented here") := by
    simp [image_name, hin]
  have h2 : image_path h = Except.error
      (.notImplementedError "image naming is not implmented here") := by
    simp [image_path, h1]
  have h3 : ∀ fs0 : Fs, have_artifact fs0 h = Except.error
      (.notImplementedError "image naming is not implmented here") := by
    intro fs0
    simp [have_artifact, h2]
  have h4 : ensure_built hook h w = Except.error
      (.notImplementedError "image naming is not implmented here") := by
    simp [ensure_built, h3 w.fs]
  exact ⟨h1, h2, h3 fs, h4⟩

/-- Witness for C10 at sampleHandle, whose image name is unset. -/
theorem c10_unset_image_name_witness :
    image_name sampleHandle = Except.error
      (.notImplementedError "image naming is not implmented here") ∧
    image_path sampleHandle = Except.error
      (.notImplementedError "image naming is not implmented here") ∧
    have_artifact (fun _ => none) sampleHandle = Except.error
      (.notImplementedError "image naming is not implmented here") ∧
    ensure_built id sampleHandle ⟨fun _ => none, 0⟩ = Except.error
      (.notImplementedError "image naming is not implmented here") :=
  c10_unset_image_name sampleHandle (fun _ => none) id ⟨fun _ => none, 0⟩ rfl

/-! ### Artifact checksums: sha256sum_file and get_artifact_meta (C4) -/

/-- The fixed 128 KiB read size of cmdlib.sha256sum_file. -/
def READCHUNK : Nat := 128 * 1024

/-- The chunk sequence produced by iter(lambda: f.read(128*1024), b''):
successive 128 KiB takes until the file is exhausted.  The fuel argument
makes the recursion structural; the byte count suffices as fuel. -/
def chunksAux : Nat → List Nat → List (List Nat)
  | _, [] => []
  | 0, _ => []
  | fuel + 1, l => l.take READCHUNK :: chunksAux fuel (l.drop READCHUNK)

/-- The chunks read from a file of the given bytes. -/
def file_chunks (bytes : List Nat) : List (List Nat) :=
  chunksAux bytes.length bytes

/-- hashlib.sha256, modelled as an abstract 256-bit digest function of
the byte sequence absorbed through update(); the incremental hash object
state is exactly the byte sequence fed so far. -/
structure HashLib where
  sha256 : List Nat → Nat
  sha256_lt : ∀ bs, sha256 bs < 2 ^ 256

/-- The sixteen lowercase hexadecimal digit characters: the decimal
digits followed by the letters a to f. -/
def hexChars : List Char :=
  (List.range 16).map
    (fun d => if d < 10 then Char.ofNat (48 + d) else Char.ofNat (87 + d))

/-- hexdigest() of a 256-bit digest: 64 lowercase hexadecimal digits,
most significant first. -/
def hexdigest (n : Nat) : String :=
  ⟨(List.range 64).map (fun i => hexChars.getD (n / 16 ^ (63 - i) % 16) '0')⟩

/-- cmdlib.sha256sum_file: stream the file in 128 KiB chunks through one
hash object and return its hexdigest. -/
def sha256sum_file (H : HashLib) (bytes : List Nat) : String :=
  hexdigest (H.sha256 ((file_chunks bytes).foldl (fun st b => st ++ b) []))

lemma chunksAux_flatten : ∀ fuel l, l.length ≤ fuel →
    (chunksAux fuel l).flatten = l := by
  intro fuel
  induction fuel with
  | zero =>
      intro l hl
      have : l = [] := List.eq_nil_of_length_eq_zero (Nat.le_zero.1 hl)
      subst this
      rfl
  | succ n ih =>
      intro l hl
      cases l with
      | nil => rfl
      | cons a t =>
          have hstep : chunksAux (n + 1) (a :: t) =
              (a :: t).take READCHUNK :: chunksAux n ((a :: t).drop READCHUNK) := rfl
          rw [hstep, List.flatten_cons]
          have hd : ((a :: t).drop READCHUNK).length ≤ n := by
            rw [List.length_drop]
            simp only [List.length_cons] at hl ⊢
            have : 1 ≤ READCHUNK := by decide
            omega
          rw [ih _ hd, List.take_append_drop]

lemma foldl_append_eq_flatten : ∀ (cs : List (List Nat)) (acc : List Nat),
    cs.foldl (fun st b => st ++ b) acc = acc ++ cs.flatten := by
  intro cs
  induction cs with
  | nil => intro acc; simp
  | cons c t ih =>
      intro acc
      rw [List.foldl_cons, ih, List.flatten_cons, List.append_assoc]

/-- Streaming in 128 KiB chunks computes the digest of the whole byte
sequence of the file. -/
lemma sha256sum_file_eq (H : HashLib) (bytes : List Nat) :
    sha256sum_file H bytes = hexdigest (H.sha256 bytes) := by
  unfold sha256sum_file
  rw [foldl_append_eq_flatten, List.nil_append, file_chunks,
    chunksAux_flatten bytes.length bytes (Nat.le_refl _)]

lemma hexdigest_length (n : Nat) : (hexdigest n).length = 64 := by
  simp [hexdigest, String.length]

lemma hex_getD_mem : ∀ m, m < 16 → hexChars.getD m '0' ∈ hexChars := by
  decide

lemma hexdigest_lower (n : Nat) :
    ∀ c ∈ (hexdigest n).data, c ∈ hexChars := by
  intro c hc
  simp only [hexdigest, String.data, List.mem_map, List.mem_range] at hc
  obtain ⟨i, _, rfl⟩ := hc
  exact hex_getD_mem _ (Nat.mod_lt _ (by decide))

/-- os.stat(path).st_size in the modelled filesystem; a missing path
raises an OSError. -/
def os_stat_size (fs : Fs) (p : Path) : Except PyErr Nat :=
  match fs p with
  | some e => Except.ok e.content.length
  | none => Except.error .osError

/-- open(path, rb).read in the modelled filesystem; a missing path raises
an OSError. -/
def read_file (fs : Fs) (p : Path) : Except PyErr (List Nat) :=
  match fs p with
  | some e => Except.ok e.content
  | none => Except.error .osError

/-- _Build.get_artifact_meta: fsize is the st_size of image_path, taken
before fname defaults to image_name; the hash is computed over the file
named fname inside the build directory; the returned dict has the keys
path, sha256sum and size (int of the str of st_size, a round trip). -/
def get_artifact_meta (H : HashLib) (fs : Fs) (h : Handle)
    (fname : Option String) : Except PyErr JDict :=
  match image_path h with
  | .error e => .error e
  | .ok ip =>
    match os_stat_size fs ip with
    | .error e => .error e
    | .ok fsize =>
      match (match fname with | none => image_name h | some s => Except.ok s) with
      | .error e => .error e
      | .ok fn =>
        match read_file fs (h.buildDir ++ [fn]) with
        | .error e => .error e
        | .ok bytes =>
            Except.ok [("path", .str fn),
              ("sha256sum", .str (sha256sum_file H bytes)),
              ("size", .num (Int.ofNat fsize))]

/-- A dummy digest function standing in for the abstract SHA-256; the C4
counterexample facts (the field names and the source of the size) hold
for every digest function. -/
def cexHash : HashLib := ⟨fun _ => 0, fun _ => by positivity⟩

/-- A filesystem with the canonical artifact (3 bytes) and a second
artifact file (5 bytes). -/
def cexFs4 : Fs := fun p =>
  if p = ["builds", "b1", "img.qcow2"] then some ⟨[0, 0, 0], 0o644⟩
  else if p = ["builds", "b1", "other.img"] then some ⟨[1, 2, 3, 4, 5], 0o644⟩
  else none

/-- The sample handle with its image name assigned. -/
def cexH4 : Handle := set_image_name sampleHandle "img.qcow2"

/-- C4 counterexample: for the existing 5-byte file other.img, the record
returned by get_artifact_meta has no field named sha256 (the digest field
is named sha256sum) and its size field is 3, the byte length of the
canonical image_path file, not 5, the byte length of other.img. -/
theorem c4_counterexample :
    ∃ r, get_artifact_meta cexHash cexFs4 cexH4 (some "other.img") =
        Except.ok r ∧
      dLookup r "sha256" = none ∧
      dLookup r "size" = some (.num 3) ∧
      (cexFs4 ["builds", "b1", "other.img"]).map
        (fun e => e.content.length) = some 5 := by
  refine ⟨_, rfl, rfl, rfl, rfl⟩

/-- C4 amended: for an existing file fname, get_artifact_meta returns a
record whose path field is fname, whose sha256sum field is the 64
character lowercase hexadecimal SHA-256 digest of the bytes of that file
(computed by streaming it in fixed 128 KiB chunks), and whose size field
is the byte length of the file at the canonical image_path. -/
theorem c4_get_artifact_meta_amended (H : HashLib) (fs : Fs) (h : Handle)
    (nm fn : String) (ie fe : FileEnt)
    (hin : h.imageName = some nm)
    (himg : fs (h.buildDir ++ [nm]) = some ie)
    (hf : fs (h.buildDir ++ [fn]) = some fe) :
    get_artifact_meta H fs h (some fn) =
      Except.ok [("path", .str fn),
        ("sha256sum", .str (hexdigest (H.sha256 fe.content))),
        ("size", .num (Int.ofNat ie.content.length))] ∧
    sha256sum_file H fe.content = hexdigest (H.sha256 fe.content) ∧
    (hexdigest (H.sha256 fe.content)).length = 64 ∧
    (∀ c ∈ (hexdigest (H.sha256 fe.content)).data, c ∈ hexChars) := by
  refine ⟨?_, sha256sum_file_eq H _, hexdigest_length _, hexdigest_lower _⟩
  have hip : image_path h = Except.ok (h.buildDir ++ [nm]) := by
    simp [image_path, image_name, hin]
  have hsz : os_stat_size fs (h.buildDir ++ [nm]) =
      Except.ok ie.content.length := by
    simp [os_stat_size, himg]
  have hrd : read_file fs (h.buildDir ++ [fn]) = Except.ok fe.content := by
    simp [read_file, hf]
  simp [get_artifact_meta, hip, hsz, hrd, sha256sum_file_eq]

/-- Witness for C4 amended at the concrete filesystem of the
counterexample. -/
theorem c4_get_artifact_meta_amended_witness :
    get_artifact_meta cexHash cexFs4 cexH4 (some "other.img") =
      Except.ok [("path", .str "other.img"),
        ("sha256sum", .str (hexdigest (cexHash.sha256 [1, 2, 3, 4, 5]))),
        ("size", .num (Int.ofNat 3))] ∧
    sha256sum_file cexHash [1, 2, 3, 4, 5] =
      hexdigest (cexHash.sha256 [1, 2, 3, 4, 5]) ∧
    (hexdigest (cexHash.sha256 [1, 2, 3, 4, 5])).length = 64 ∧
    (∀ c ∈ (hexdigest (cexHash.sha256 [1, 2, 3, 4, 5])).data,
      c ∈ hexChars) := by
  have h := c4_get_artifact_meta_amended cexHash cexFs4 cexH4 "img.qcow2"
    "other.img" ⟨[0, 0, 0], 0o644⟩ ⟨[1, 2, 3, 4, 5], 0o644⟩ rfl rfl rfl
  exact h

/-! ### Scratch directory teardown (C9) -/

/-- Outcome of shutil.rmtree on the scratch directory, supplied by the
environment. -/
inductive RmtreeOutcome where
  | success
  | failure (msg : String)

/-- _Build.__del__: try shutil.rmtree(self._tmpdir); on any failure the
handler raises a new wrapping Exception instead of suppressing it. -/
def del_build (tmpdir : String) (rm : RmtreeOutcome) : Except PyErr Unit :=
  match rm with
  | .success => Except.ok ()
  | .failure _ => Except.error (.exception
      ("failed to remove temporary directory: " ++ tmpdir))

/-- C9 (code bug in the teardown path): when rmtree fails, __del__ raises
a wrapping Exception out of the teardown path instead of performing the
best-effort removal the spec describes. -/
theorem c9_del_raises_on_failure :
    del_build "build_tmpdXYZ" (.failure "Permission denied") =
      Except.error (.exception
        "failed to remove temporary directory: build_tmpdXYZ") ∧
    ∀ u, del_build "build_tmpdXYZ" (.failure "Permission denied") ≠
      Except.ok u :=
  ⟨rfl, fun _ h => Except.noConfusion h⟩

end Cosa
